import Mathlib

/-!
Verification development for the everything2prompt query/filter/aggregation
engine.  Definitions are shallow embeddings of the Python source
(`src/query.py`, `src/models.py`, `src/cache.py`); timestamps are modelled
as integer microsecond counts on the proleptic Gregorian calendar (the
order on Python `datetime` coincides with the order on these counts).
-/

namespace E2P

/-- A Python `datetime` modelled as microseconds since the proleptic
Gregorian epoch (ordinal day 0 at midnight).  Python datetime comparison
coincides with integer comparison of these counts. -/
abbrev DT := Int

def usPerDay : Int := 86400000000

/-- Leap-year test, as Python `calendar.isleap` / `datetime` use it. -/
def isLeap (y : Nat) : Bool := y % 4 == 0 && (y % 100 != 0 || y % 400 == 0)

/-- Length of month `m` (1-12) of year `y`. -/
def daysInMonth (y m : Nat) : Nat :=
  if m = 2 then (if isLeap y then 29 else 28)
  else if m = 4 ∨ m = 6 ∨ m = 9 ∨ m = 11 then 30
  else if 1 ≤ m ∧ m ≤ 12 then 31
  else 0

/-- Days in the months of year `y` strictly before month `m`. -/
def daysBeforeMonth (y m : Nat) : Nat :=
  (List.range (m - 1)).foldl (fun acc i => acc + daysInMonth y (i + 1)) 0

/-- Days in the years strictly before year `y` (Python `_days_before_year`). -/
def daysBeforeYear (y : Nat) : Nat :=
  let p := y - 1
  p * 365 + p / 4 - p / 100 + p / 400

/-- Python `datetime.toordinal`: day number of `y-m-d`, day 1 = 0001-01-01. -/
def toOrdinal (y m d : Nat) : Nat := daysBeforeYear y + daysBeforeMonth y m + d

/-- The timestamp of `y-m-d hh:mm:ss.us` in microseconds. -/
def mkDT (y m d hh mi ss us : Nat) : DT :=
  ((((toOrdinal y m d) * 86400 + hh * 3600 + mi * 60 + ss) * 1000000 + us : Nat) : Int)

/-! Python string primitives, over the character lists underlying `String`. -/

/-- The six ASCII whitespace characters recognised by Python `str.split()`. -/
def pyIsSpace (c : Char) : Bool :=
  c = ' ' || c = '\t' || c = '\n' || c = '\r' || c = '\x0b' || c = '\x0c'

/-- Helper for `pySplit`: split on whitespace runs, discarding empties. -/
def pySplitGo : List Char → List Char → List (List Char)
  | [], cur => if cur.isEmpty then [] else [cur.reverse]
  | c :: cs, cur =>
    if pyIsSpace c then
      if cur.isEmpty then pySplitGo cs [] else cur.reverse :: pySplitGo cs []
    else pySplitGo cs (c :: cur)

/-- Python `str.split()` with no argument: split on whitespace runs. -/
def pySplit (s : String) : List String :=
  (pySplitGo s.data []).map fun cs => String.mk cs

/-- Helper for `pySplitOn`: split on every occurrence of `sep`, keeping empties. -/
def splitOnCharGo (sep : Char) : List Char → List Char → List (List Char)
  | [], cur => [cur.reverse]
  | c :: cs, cur =>
    if c = sep then cur.reverse :: splitOnCharGo sep cs []
    else splitOnCharGo sep cs (c :: cur)

/-- Python `str.split(sep)` for a one-character separator. -/
def pySplitOn (sep : Char) (s : String) : List String :=
  (splitOnCharGo sep s.data []).map fun cs => String.mk cs

/-- Helper for `splitFirstColon`. -/
def splitFirstColonGo : List Char → Option (List Char × List Char)
  | [] => none
  | c :: cs =>
    if c = ':' then some ([], cs)
    else match splitFirstColonGo cs with
      | some (k, v) => some (c :: k, v)
      | none => none

/-- Python `part.split(":", 1)` guarded by `":" in part`: `none` when the
string has no colon, otherwise the text before and after the first colon. -/
def splitFirstColon (s : String) : Option (String × String) :=
  (splitFirstColonGo s.data).map fun kv => (String.mk kv.1, String.mk kv.2)

/-- Python `str.strip()` (ASCII whitespace, which is all the source uses). -/
def pyStrip (s : String) : String :=
  String.mk (((s.data.dropWhile pyIsSpace).reverse.dropWhile pyIsSpace).reverse)

/-- Python `str.lower()` on the ASCII range used by the query grammar. -/
def pyLower (s : String) : String := String.mk (s.data.map Char.toLower)

/-- Numeric value of a nonempty ASCII digit string. -/
def digitsToNat (cs : List Char) : Nat :=
  cs.foldl (fun acc c => acc * 10 + (c.toNat - '0'.toNat)) 0

/-! The date expression parser (`parse_relative_date` and the
`Query.parse_date` validator in `src/query.py`). -/

/-- Days per unit letter: `d`/`w`/`m`/`y`; months and years are the fixed
30-day and 365-day approximations of the source. -/
def unitToDays : Char → Int
  | 'd' => 1
  | 'w' => 7
  | 'm' => 30
  | 'y' => 365
  | _ => 0

/-- The `(\d+)([dwmy])$` tail of the relative-date regex: one or more
digits followed by exactly one unit character. -/
def parseNumUnit (cs : List Char) : Option (Nat × Char) :=
  let digits := cs.takeWhile Char.isDigit
  let rest := cs.dropWhile Char.isDigit
  if digits.isEmpty then none
  else match rest with
    | [u] => if u = 'd' ∨ u = 'w' ∨ u = 'm' ∨ u = 'y' then some (digitsToNat digits, u) else none
    | _ => none

/-- The full relative-date regex `^([+-]?)(\d+)([dwmy])$`: sign multiplier,
magnitude, unit. -/
def parseRelPattern (cs : List Char) : Option (Int × Nat × Char) :=
  match cs with
  | '+' :: rest => (parseNumUnit rest).map fun nu => (1, nu.1, nu.2)
  | '-' :: rest => (parseNumUnit rest).map fun nu => (-1, nu.1, nu.2)
  | _ => (parseNumUnit cs).map fun nu => (1, nu.1, nu.2)

/-- Shallow embedding of `parse_relative_date` from `src/query.py`;
`none` models the raised `ValueError`.  `now` is the ambient
`datetime.now()` value, passed explicitly. -/
def parse_relative_date (now : DT) (s : String) : Option DT :=
  if s.data.isEmpty then none
  else if pyLower s = "now" then some now
  else match parseRelPattern (pyLower s).data with
    | some snu => some (now + (snu.1 * snu.2.1) * unitToDays snu.2.2 * usPerDay)
    | none => none

/-- Shallow embedding of `datetime.strptime(v, "%Y-%m-%d")`: a four-digit
year, dash, one-or-two-digit month, dash, one-or-two-digit day, validated
against the calendar; yields midnight of that date. -/
def strptimeYmd (s : String) : Option DT :=
  match splitOnCharGo '-' s.data [] with
  | [ys, ms, ds] =>
    if ys.length = 4 ∧ ys.all Char.isDigit = true ∧
       1 ≤ ms.length ∧ ms.length ≤ 2 ∧ ms.all Char.isDigit = true ∧
       1 ≤ ds.length ∧ ds.length ≤ 2 ∧ ds.all Char.isDigit = true then
      let y := digitsToNat ys
      let m := digitsToNat ms
      let d := digitsToNat ds
      if 1 ≤ y ∧ 1 ≤ m ∧ m ≤ 12 ∧ 1 ≤ d ∧ d ≤ daysInMonth y m then
        some (mkDT y m d 0 0 0 0)
      else none
    else none
  | _ => none

/-- Errors surfaced by query parsing (`ValueError` variants in the source,
each constructor carrying the offending input of its message). -/
inductive QueryError where
  | invalidQuery (parts : List String)
  | invalidSource (s : String)
  | parseDate (s : String)
  | dateOrder
deriving DecidableEq, Repr

/-- Shallow embedding of the `Query.parse_date` field validator: try the
relative grammar first, then the absolute `YYYY-MM-DD` grammar, and fail
carrying the original input when both fail. -/
def parse_date (now : DT) (s : String) : Except QueryError DT :=
  match parse_relative_date now s with
  | some d => .ok d
  | none =>
    match strptimeYmd s with
    | some d => .ok d
    | none => .error (.parseDate s)

instance {ε α : Type} [DecidableEq ε] [DecidableEq α] : DecidableEq (Except ε α) := fun x y =>
  match x, y with
  | .ok a, .ok b => if h : a = b then isTrue (by rw [h]) else isFalse (by simp [h])
  | .error a, .error b => if h : a = b then isTrue (by rw [h]) else isFalse (by simp [h])
  | .ok _, .error _ => isFalse (by simp)
  | .error _, .ok _ => isFalse (by simp)

/-! The query parser (`Query` and `Query.from_string` in `src/query.py`). -/

/-- The structured filter spec produced by parsing a query string
(the pydantic `Query` model). -/
structure Query where
  source : Option (List String)
  tag : Option (List String)
  from_date : Option DT
  to_date : Option DT
deriving DecidableEq, Repr

/-- Intermediate state of the token loop in `Query.from_string`: the four
raw field values and the collected unrecognized parts. -/
structure RawParts where
  source : Option (List String)
  tag : Option (List String)
  fromRaw : Option String
  toRaw : Option String
  unrecognized : List String
deriving DecidableEq, Repr

def initRaw : RawParts := ⟨none, none, none, none, []⟩

/-- Python `[x.strip() for x in value.split(",")]`. -/
def splitCommaStrip (value : String) : List String :=
  (pySplitOn ',' value).map pyStrip

/-- One iteration of the token loop of `Query.from_string`: split the part
at its first colon; a recognized key overwrites the corresponding field,
anything else is appended to the unrecognized list. -/
def applyPart (acc : RawParts) (part : String) : RawParts :=
  match splitFirstColon part with
  | some kv =>
    if kv.1 = "source" then { acc with source := some (splitCommaStrip kv.2) }
    else if kv.1 = "tag" then { acc with tag := some (splitCommaStrip kv.2) }
    else if kv.1 = "from" then { acc with fromRaw := some kv.2 }
    else if kv.1 = "to" then { acc with toRaw := some kv.2 }
    else { acc with unrecognized := acc.unrecognized ++ [part] }
  | none => { acc with unrecognized := acc.unrecognized ++ [part] }

/-- The token loop of `Query.from_string` over all whitespace-split parts. -/
def parseParts (parts : List String) : RawParts := parts.foldl applyPart initRaw

def validSources : List String := ["obsidian", "todoist", "instapaper", "calendar", "health"]

/-- The `validate_source` field validator: every requested source must be a
member of the fixed source set; fails on the first offender. -/
def validate_source : Option (List String) → Except QueryError (Option (List String))
  | none => .ok none
  | some ss =>
    match ss.find? (fun s => !(validSources.contains s)) with
    | some bad => .error (.invalidSource bad)
    | none => .ok (some ss)

/-- Run `parse_date` on an optional raw field value. -/
def parseDateOpt (now : DT) : Option String → Except QueryError (Option DT)
  | none => .ok none
  | some s => (parse_date now s).map some

/-- Python `dt.replace(hour=23, minute=59, second=59, microsecond=999999)`:
keep the calendar day, move to its last representable instant.  All dates
the parser produces are nonnegative, where `Int` division is floor. -/
def endOfDay (t : DT) : DT := (t / usPerDay) * usPerDay + 86399999999

/-- Shallow embedding of `Query.from_string`: tokenize on whitespace, run
the token loop, raise one aggregate error when any part is unrecognized,
then run the pydantic field validators in order and finally extend a
present `to_date` to the end of its day. -/
def from_string (now : DT) (query_string : String) : Except QueryError Query :=
  let acc := parseParts (pySplit query_string)
  if acc.unrecognized ≠ [] then .error (.invalidQuery acc.unrecognized)
  else
    match validate_source acc.source with
    | .error e => .error e
    | .ok src =>
      match parseDateOpt now acc.fromRaw with
      | .error e => .error e
      | .ok fromD =>
        match parseDateOpt now acc.toRaw with
        | .error e => .error e
        | .ok toD =>
          match fromD, toD with
          | some f, some t =>
            if t < f then .error .dateOrder
            else .ok ⟨src, acc.tag, fromD, some (endOfDay t)⟩
          | _, _ => .ok ⟨src, acc.tag, fromD, toD.map endOfDay⟩

/-! The record model (`src/models.py`).  The five node classes share the
base fields `name`, `tags`, `date` and a `data_source` literal; `Node` is
the tagged union over them. -/

/-- Inverse of `toOrdinal`, as CPython `datetime._ord2ymd` computes it via
400/100/4/1-year cycles, with a linear month scan (`fuel` bounds it at the
twelve months of a year). -/
def monthScan (y : Nat) : Nat → Nat → Nat → Nat × Nat
  | _, 0, n => (12, n + 1)
  | m, fuel + 1, n =>
    if n < daysInMonth y m then (m, n + 1)
    else monthScan y (m + 1) fuel (n - daysInMonth y m)

/-- The `(year, month, day)` of proleptic-Gregorian ordinal day `ord`. -/
def civilFromDays (ord : Nat) : Nat × Nat × Nat :=
  let n := ord - 1
  let n400 := n / 146097
  let r400 := n % 146097
  let n100 := r400 / 36524
  let r100 := r400 % 36524
  let n4 := r100 / 1461
  let r4 := r100 % 1461
  let n1 := r4 / 365
  let r1 := r4 % 365
  let y := 400 * n400 + 100 * n100 + 4 * n4 + n1 + 1
  if n1 = 4 ∨ n100 = 4 then (y - 1, 12, 31)
  else
    let md := monthScan y 1 12 r1
    (y, md.1, md.2)

def padLeft (c : Char) (k : Nat) (s : String) : String :=
  String.mk (List.replicate (k - s.data.length) c) ++ s

/-- The ISO form `YYYY-MM-DD` of a date value, as pydantic serializes a
`datetime.date` found inside an untyped `dict` field. -/
def isoOfDate (d : DT) : String :=
  let ymd := civilFromDays (d / usPerDay).toNat
  padLeft '0' 4 (Nat.repr ymd.1) ++ "-" ++ padLeft '0' 2 (Nat.repr ymd.2.1) ++ "-" ++
    padLeft '0' 2 (Nat.repr ymd.2.2)

mutual
/-- A Python value as stored in the untyped `dict` fields (`yaml_content`
from `yaml.safe_load` in obsidian.py, `health_metrics` from the CSV
reader): null, booleans, ints, floats, strings, date/datetime objects
(front-matter `date:` entries), and arbitrarily nested lists and
mappings of these.  A finite IEEE-754 double is written in its canonical
form `m * 2 ^ e` (Python float equality and its exact JSON repr
round trip coincide with equality of that form). -/
inductive PyVal where
  | pnull
  | pbool (b : Bool)
  | pint (n : Int)
  | pfloat (m : Int) (e : Int)
  | pstr (s : String)
  | pdate (d : DT)
  | plist (xs : PyValList)
  | pdict (kvs : PyValDict)
deriving DecidableEq
/-- A list value inside a `dict` field. -/
inductive PyValList where
  | nil
  | cons (v : PyVal) (rest : PyValList)
deriving DecidableEq
/-- A nested mapping inside a `dict` field, as an ordered key/value list. -/
inductive PyValDict where
  | nil
  | cons (k : String) (v : PyVal) (rest : PyValDict)
deriving DecidableEq
end

/-- An untyped Python `dict` field. -/
abbrev PyDict := PyValDict

structure ObsidianNode where
  name : String
  tags : List String
  date : Option DT
  absolute_path : String
  markdown_content : String
  yaml_content : PyDict
deriving DecidableEq

structure TodoistProject where
  project_id : String
  name : String
deriving DecidableEq, Repr

structure TodoistNode where
  name : String
  tags : List String
  date : Option DT
  task_id : String
  content : String
  description : Option String
  project_id : String
  parent_id : Option String
  labels : List String
  priority : Int
  due : Option DT
  deadline : Option DT
  completed_at : Option DT
  created_at : Option DT
  updated_at : Option DT
deriving DecidableEq, Repr

structure InstapaperNode where
  name : String
  tags : List String
  date : Option DT
  url : String
  title : String
  folder : String
  is_read : Bool
  timestamp : Int
  selection : Option String
deriving DecidableEq, Repr

structure CalendarNode where
  name : String
  tags : List String
  date : Option DT
  event_id : String
  description : Option String
  location : Option String
  start_time : DT
  end_time : Option DT
  organizer : Option String
  status : Option String
  created_at : Option DT
  last_modified : Option DT
  calendar_name : Option String
deriving DecidableEq, Repr

structure HealthNode where
  name : String
  tags : List String
  date : Option DT
  health_metrics : PyDict
deriving DecidableEq

/-- The union `ObsidianNode | TodoistNode | InstapaperNode | CalendarNode |
HealthNode` over which the query engine operates. -/
inductive Node where
  | obsidian (n : ObsidianNode)
  | todoist (n : TodoistNode)
  | instapaper (n : InstapaperNode)
  | calendar (n : CalendarNode)
  | health (n : HealthNode)
deriving DecidableEq

/-- The `data_source` literal of each variant. -/
def Node.data_source : Node → String
  | .obsidian _ => "obsidian"
  | .todoist _ => "todoist"
  | .instapaper _ => "instapaper"
  | .calendar _ => "calendar"
  | .health _ => "health"

def Node.tags : Node → List String
  | .obsidian n => n.tags
  | .todoist n => n.tags
  | .instapaper n => n.tags
  | .calendar n => n.tags
  | .health n => n.tags

def Node.date : Node → Option DT
  | .obsidian n => n.date
  | .todoist n => n.date
  | .instapaper n => n.date
  | .calendar n => n.date
  | .health n => n.date

/-- Python `isinstance(node, ObsidianNode)` and friends. -/
def isObsidianNode : Node → Bool
  | .obsidian _ => true
  | _ => false

def isTodoistNode : Node → Bool
  | .todoist _ => true
  | _ => false

def isInstapaperNode : Node → Bool
  | .instapaper _ => true
  | _ => false

def isCalendarNode : Node → Bool
  | .calendar _ => true
  | _ => false

def isHealthNode : Node → Bool
  | .health _ => true
  | _ => false

/-! The filter lambdas (`get_query_lambdas`) and the sort of `run`. -/

/-- The source-filter lambda: `node.data_source in query.source`. -/
def source_filter (ss : List String) (n : Node) : Bool := ss.contains n.data_source

/-- The tag-filter lambda: `any(tag in node.tags for tag in query.tag)`. -/
def tag_filter (ts : List String) (n : Node) : Bool := ts.any fun t => n.tags.contains t

/-- The from-date lambda: `node.date is None or node.date >= query.from_date`. -/
def from_date_filter (f : DT) (n : Node) : Bool :=
  match n.date with
  | none => true
  | some d => decide (f ≤ d)

/-- The to-date lambda: `node.date is None or node.date <= query.to_date`. -/
def to_date_filter (t : DT) (n : Node) : Bool :=
  match n.date with
  | none => true
  | some d => decide (d ≤ t)

/-- Shallow embedding of `get_query_lambdas`: one predicate per populated
field of the spec, in source order. -/
def get_query_lambdas (q : Query) : List (Node → Bool) :=
  (match q.source with | some ss => [source_filter ss] | none => []) ++
  (match q.tag with | some ts => [tag_filter ts] | none => []) ++
  (match q.from_date with | some f => [from_date_filter f] | none => []) ++
  (match q.to_date with | some t => [to_date_filter t] | none => [])

/-- Comparison realising Python
`sort(key=lambda x: (x.date is None, x.date), reverse=True)`:
`sortLE a b` holds when the key of `a` is greater or equal to the key of
`b`, so that a stable sort by `sortLE` lists keys in descending order.
The key of a dated node is `(False, date)` and the key of an undated node
is `(True, None)`, and `True > False` in Python, so an undated node
compares strictly above every dated node. -/
def sortLE (a b : Node) : Bool :=
  match a.date, b.date with
  | none, none => true
  | none, some _ => true
  | some _, none => false
  | some x, some y => decide (y ≤ x)

/-- The in-place `filtered_nodes.sort(...)` of `run`, as a stable sort by
descending key (Python list.sort is stable; a stable insertion sort by the
total preorder `sortLE` computes the same list). -/
def sortNodes (l : List Node) : List Node :=
  List.insertionSort (fun a b => sortLE a b = true) l

/-- The per-variant partition lists built at the end of `run`
(`src/src/query.py`); note the extra `node.date is not None` condition on
the Instapaper partition. -/
structure Partitions where
  obsidian : List Node
  todoist : List Node
  instapaper : List Node
  calendar : List Node
  health : List Node
deriving DecidableEq

/-- Concatenation of the five partitions, for stating preservation laws. -/
def Partitions.all (p : Partitions) : List Node :=
  p.obsidian ++ p.todoist ++ p.instapaper ++ p.calendar ++ p.health

/-- Shallow embedding of `run` (`src/src/query.py`) up to the rendering
boundary: parse the query, apply all filter lambdas sequentially, sort,
and partition by variant.  The template rendering of each partition is the
excluded collaborator. -/
def runPartitions (now : DT) (allNodes : List Node) (query_string : String) :
    Except QueryError Partitions :=
  match from_string now query_string with
  | .error e => .error e
  | .ok q =>
    let filtered := (get_query_lambdas q).foldl (fun ns f => ns.filter f) allNodes
    let sorted := sortNodes filtered
    .ok
      { obsidian := sorted.filter isObsidianNode
        todoist := sorted.filter isTodoistNode
        instapaper := sorted.filter fun n => isInstapaperNode n && n.date.isSome
        calendar := sorted.filter isCalendarNode
        health := sorted.filter isHealthNode }

/-- State of the module-level memo of `get_all_nodes` after `run` returns:
when no filter lambda is active, `filtered_nodes` is the very list object
memoized by `functools.cache`, so the in-place `filtered_nodes.sort(...)`
reorders the memoized list itself; any active lambda rebuilds the list by
comprehension first, leaving the memo untouched.  A parse error raises
before the memo is read. -/
def memoAfterRun (now : DT) (allNodes : List Node) (query_string : String) : List Node :=
  match from_string now query_string with
  | .error _ => allNodes
  | .ok q =>
    if (get_query_lambdas q).isEmpty then sortNodes allNodes else allNodes

/-! The cache store (`Cache.from_path` / `Cache.to_path` in `src/models.py`
and `load_cache` in `src/cache.py`).  The pydantic JSON codec
(`model_dump_json` / `model_validate_json`) is modelled at the JSON-value
level: file contents are JSON trees rather than byte strings (the spec
excludes the on-disk byte format), and the library's invertible `datetime`
codec on TYPED datetime fields is abstracted as the underlying timestamp
scalar.  Values inside the UNTYPED `dict` fields are serialized by
pydantic's fallback serializers — a `datetime.date` there becomes its ISO
string, and validation of a bare `dict` field reads it back as a plain
string — which the encoder/decoder pair below reproduces. -/

mutual
/-- A JSON value as produced by `model_dump_json`.  A JSON fractional
number is carried as the canonical `m * 2 ^ e` form of the finite double
it denotes (Python's repr round trip of finite doubles is exact). -/
inductive Json where
  | jnull
  | jbool (b : Bool)
  | jnum (n : Int)
  | jfloat (m : Int) (e : Int)
  | jstr (s : String)
  | jarr (xs : JsonList)
  | jobj (fields : JsonObj)
deriving DecidableEq
/-- A JSON array. -/
inductive JsonList where
  | nil
  | cons (j : Json) (rest : JsonList)
deriving DecidableEq
/-- A JSON object, as an ordered key/value list. -/
inductive JsonObj where
  | nil
  | cons (k : String) (v : Json) (rest : JsonObj)
deriving DecidableEq
end

def jarrOfList : List Json → JsonList
  | [] => .nil
  | j :: js => .cons j (jarrOfList js)

def jobjOfList : List (String × Json) → JsonObj
  | [] => .nil
  | kv :: kvs => .cons kv.1 kv.2 (jobjOfList kvs)

/-- Decode every element of a JSON array, failing when any element fails
(the element-wise validation pydantic applies to typed list fields). -/
def decJsonList (f : Json → Option α) : JsonList → Option (List α)
  | .nil => some []
  | .cons j rest =>
    match f j with
    | some a => (decJsonList f rest).map fun l => a :: l
    | none => none

mutual
/-- Pydantic serialization of a value inside an untyped `dict` field:
scalars go to the matching JSON scalar, a date/datetime to its ISO
string, lists and mappings recursively. -/
def encPyVal : PyVal → Json
  | .pnull => .jnull
  | .pbool b => .jbool b
  | .pint n => .jnum n
  | .pfloat m e => .jfloat m e
  | .pstr s => .jstr s
  | .pdate d => .jstr (isoOfDate d)
  | .plist xs => .jarr (encPyValList xs)
  | .pdict kvs => .jobj (encPyValDict kvs)
def encPyValList : PyValList → JsonList
  | .nil => .nil
  | .cons v rest => .cons (encPyVal v) (encPyValList rest)
def encPyValDict : PyValDict → JsonObj
  | .nil => .nil
  | .cons k v rest => .cons k (encPyVal v) (encPyValDict rest)
end

mutual
/-- Pydantic validation of a JSON value against a bare `dict`-typed field:
every JSON value is accepted as the corresponding Python value — in
particular a string stays a string, so an ISO date string does NOT come
back as a date object. -/
def jsonToPyVal : Json → PyVal
  | .jnull => .pnull
  | .jbool b => .pbool b
  | .jnum n => .pint n
  | .jfloat m e => .pfloat m e
  | .jstr s => .pstr s
  | .jarr xs => .plist (jsonListToPyVal xs)
  | .jobj kvs => .pdict (jsonObjToPyVal kvs)
def jsonListToPyVal : JsonList → PyValList
  | .nil => .nil
  | .cons j rest => .cons (jsonToPyVal j) (jsonListToPyVal rest)
def jsonObjToPyVal : JsonObj → PyValDict
  | .nil => .nil
  | .cons k j rest => .cons k (jsonToPyVal j) (jsonObjToPyVal rest)
end

mutual
/-- A `dict`-field value is JSON-stable when it contains no date/datetime
object anywhere: exactly then pydantic validation maps its dump back to
the same Python value. -/
def pyValStable : PyVal → Bool
  | .pdate _ => false
  | .plist xs => pyValListStable xs
  | .pdict kvs => pyValDictStable kvs
  | _ => true
def pyValListStable : PyValList → Bool
  | .nil => true
  | .cons v rest => pyValStable v && pyValListStable rest
def pyValDictStable : PyValDict → Bool
  | .nil => true
  | .cons _ v rest => pyValStable v && pyValDictStable rest
end

def encDict (d : PyDict) : Json := .jobj (encPyValDict d)

def decDict : Json → Option PyDict
  | .jobj fs => some (jsonObjToPyVal fs)
  | _ => none

def encStr (s : String) : Json := .jstr s

def decStr : Json → Option String
  | .jstr s => some s
  | _ => none

def encStrList (l : List String) : Json := .jarr (jarrOfList (l.map encStr))

def decStrList : Json → Option (List String)
  | .jarr xs => decJsonList decStr xs
  | _ => none

def encBool (b : Bool) : Json := .jbool b

def decBool : Json → Option Bool
  | .jbool b => some b
  | _ => none

def encInt (n : Int) : Json := .jnum n

def decInt : Json → Option Int
  | .jnum n => some n
  | _ => none

/-- The pydantic `datetime` scalar codec on typed fields, abstracted to
its timestamp. -/
def encDT (d : DT) : Json := .jnum d

def decDT : Json → Option DT
  | .jnum n => some n
  | _ => none

def encOpt (enc : α → Json) : Option α → Json
  | none => .jnull
  | some a => enc a

def decOpt (dec : Json → Option α) : Json → Option (Option α)
  | .jnull => some none
  | j => (dec j).map some

/-- Field lookup in a dumped object. -/
def getField : JsonObj → String → Option Json
  | .nil, _ => none
  | .cons k v rest, key => if k = key then some v else getField rest key

def encObsidian (n : ObsidianNode) : Json :=
  .jobj (jobjOfList [("data_source", .jstr "obsidian"), ("name", encStr n.name),
         ("tags", encStrList n.tags), ("date", encOpt encDT n.date),
         ("absolute_path", encStr n.absolute_path),
         ("markdown_content", encStr n.markdown_content),
         ("yaml_content", encDict n.yaml_content)])

def decObsidian : Json → Option ObsidianNode
  | .jobj fs => do
    let ds ← getField fs "data_source" >>= decStr
    if ds = "obsidian" then
      let nm ← getField fs "name" >>= decStr
      let tg ← getField fs "tags" >>= decStrList
      let dt ← getField fs "date" >>= decOpt decDT
      let ap ← getField fs "absolute_path" >>= decStr
      let mc ← getField fs "markdown_content" >>= decStr
      let yc ← getField fs "yaml_content" >>= decDict
      pure ⟨nm, tg, dt, ap, mc, yc⟩
    else none
  | _ => none

def encProject (p : TodoistProject) : Json :=
  .jobj (jobjOfList [("data_source", .jstr "todoist"), ("project_id", encStr p.project_id),
         ("name", encStr p.name)])

def decProject : Json → Option TodoistProject
  | .jobj fs => do
    let ds ← getField fs "data_source" >>= decStr
    if ds = "todoist" then
      let pid ← getField fs "project_id" >>= decStr
      let nm ← getField fs "name" >>= decStr
      pure ⟨pid, nm⟩
    else none
  | _ => none

def encTodoist (n : TodoistNode) : Json :=
  .jobj (jobjOfList [("data_source", .jstr "todoist"), ("name", encStr n.name),
         ("tags", encStrList n.tags), ("date", encOpt encDT n.date),
         ("task_id", encStr n.task_id), ("content", encStr n.content),
         ("description", encOpt encStr n.description),
         ("project_id", encStr n.project_id),
         ("parent_id", encOpt encStr n.parent_id),
         ("labels", encStrList n.labels), ("priority", encInt n.priority),
         ("due", encOpt encDT n.due), ("deadline", encOpt encDT n.deadline),
         ("completed_at", encOpt encDT n.completed_at),
         ("created_at", encOpt encDT n.created_at),
         ("updated_at", encOpt encDT n.updated_at)])

def decTodoist : Json → Option TodoistNode
  | .jobj fs => do
    let ds ← getField fs "data_source" >>= decStr
    if ds = "todoist" then
      let nm ← getField fs "name" >>= decStr
      let tg ← getField fs "tags" >>= decStrList
      let dt ← getField fs "date" >>= decOpt decDT
      let tid ← getField fs "task_id" >>= decStr
      let ct ← getField fs "content" >>= decStr
      let dsc ← getField fs "description" >>= decOpt decStr
      let pid ← getField fs "project_id" >>= decStr
      let par ← getField fs "parent_id" >>= decOpt decStr
      let lb ← getField fs "labels" >>= decStrList
      let pr ← getField fs "priority" >>= decInt
      let du ← getField fs "due" >>= decOpt decDT
      let dl ← getField fs "deadline" >>= decOpt decDT
      let ca ← getField fs "completed_at" >>= decOpt decDT
      let cr ← getField fs "created_at" >>= decOpt decDT
      let ua ← getField fs "updated_at" >>= decOpt decDT
      pure ⟨nm, tg, dt, tid, ct, dsc, pid, par, lb, pr, du, dl, ca, cr, ua⟩
    else none
  | _ => none

def encInstapaper (n : InstapaperNode) : Json :=
  .jobj (jobjOfList [("data_source", .jstr "instapaper"), ("name", encStr n.name),
         ("tags", encStrList n.tags), ("date", encOpt encDT n.date),
         ("url", encStr n.url), ("title", encStr n.title),
         ("folder", encStr n.folder), ("is_read", encBool n.is_read),
         ("timestamp", encInt n.timestamp),
         ("selection", encOpt encStr n.selection)])

def decInstapaper : Json → Option InstapaperNode
  | .jobj fs => do
    let ds ← getField fs "data_source" >>= decStr
    if ds = "instapaper" then
      let nm ← getField fs "name" >>= decStr
      let tg ← getField fs "tags" >>= decStrList
      let dt ← getField fs "date" >>= decOpt decDT
      let url ← getField fs "url" >>= decStr
      let ttl ← getField fs "title" >>= decStr
      let fld ← getField fs "folder" >>= decStr
      let rd ← getField fs "is_read" >>= decBool
      let ts ← getField fs "timestamp" >>= decInt
      let sel ← getField fs "selection" >>= decOpt decStr
      pure ⟨nm, tg, dt, url, ttl, fld, rd, ts, sel⟩
    else none
  | _ => none

def encCalendar (n : CalendarNode) : Json :=
  .jobj (jobjOfList [("data_source", .jstr "calendar"), ("name", encStr n.name),
         ("tags", encStrList n.tags), ("date", encOpt encDT n.date),
         ("event_id", encStr n.event_id),
         ("description", encOpt encStr n.description),
         ("location", encOpt encStr n.location),
         ("start_time", encDT n.start_time),
         ("end_time", encOpt encDT n.end_time),
         ("organizer", encOpt encStr n.organizer),
         ("status", encOpt encStr n.status),
         ("created_at", encOpt encDT n.created_at),
         ("last_modified", encOpt encDT n.last_modified),
         ("calendar_name", encOpt encStr n.calendar_name)])

def decCalendar : Json → Option CalendarNode
  | .jobj fs => do
    let ds ← getField fs "data_source" >>= decStr
    if ds = "calendar" then
      let nm ← getField fs "name" >>= decStr
      let tg ← getField fs "tags" >>= decStrList
      let dt ← getField fs "date" >>= decOpt decDT
      let eid ← getField fs "event_id" >>= decStr
      let dsc ← getField fs "description" >>= decOpt decStr
      let loc ← getField fs "location" >>= decOpt decStr
      let st ← getField fs "start_time" >>= decDT
      let et ← getField fs "end_time" >>= decOpt decDT
      let org ← getField fs "organizer" >>= decOpt decStr
      let sta ← getField fs "status" >>= decOpt decStr
      let cr ← getField fs "created_at" >>= decOpt decDT
      let lm ← getField fs "last_modified" >>= decOpt decDT
      let cn ← getField fs "calendar_name" >>= decOpt decStr
      pure ⟨nm, tg, dt, eid, dsc, loc, st, et, org, sta, cr, lm, cn⟩
    else none
  | _ => none

def encHealth (n : HealthNode) : Json :=
  .jobj (jobjOfList [("data_source", .jstr "health"), ("name", encStr n.name),
         ("tags", encStrList n.tags), ("date", encOpt encDT n.date),
         ("health_metrics", encDict n.health_metrics)])

def decHealth : Json → Option HealthNode
  | .jobj fs => do
    let ds ← getField fs "data_source" >>= decStr
    if ds = "health" then
      let nm ← getField fs "name" >>= decStr
      let tg ← getField fs "tags" >>= decStrList
      let dt ← getField fs "date" >>= decOpt decDT
      let hm ← getField fs "health_metrics" >>= decDict
      pure ⟨nm, tg, dt, hm⟩
    else none
  | _ => none

/-- The persisted aggregate: one ordered collection per variant plus the
project list (`Cache` in `src/models.py`). -/
structure Cache where
  todoist_projects : List TodoistProject
  todoist_tasks : List TodoistNode
  obsidian_notes : List ObsidianNode
  instapaper_articles : List InstapaperNode
  calendar_events : List CalendarNode
  health_data : List HealthNode
deriving DecidableEq

/-- `Cache()` with all-default (empty) collections. -/
def emptyCache : Cache := ⟨[], [], [], [], [], []⟩

def encCache (c : Cache) : Json :=
  .jobj (jobjOfList
    [("todoist_projects", .jarr (jarrOfList (c.todoist_projects.map encProject))),
     ("todoist_tasks", .jarr (jarrOfList (c.todoist_tasks.map encTodoist))),
     ("obsidian_notes", .jarr (jarrOfList (c.obsidian_notes.map encObsidian))),
     ("instapaper_articles", .jarr (jarrOfList (c.instapaper_articles.map encInstapaper))),
     ("calendar_events", .jarr (jarrOfList (c.calendar_events.map encCalendar))),
     ("health_data", .jarr (jarrOfList (c.health_data.map encHealth)))])

def decList (dec : Json → Option α) : Json → Option (List α)
  | .jarr xs => decJsonList dec xs
  | _ => none

/-- `Cache.model_validate_json`: decode and validate every collection;
`none` models a raised validation error. -/
def decCache (j : Json) : Option Cache :=
  match j with
  | .jobj fs => do
    let tp ← getField fs "todoist_projects" >>= decList decProject
    let tt ← getField fs "todoist_tasks" >>= decList decTodoist
    let ob ← getField fs "obsidian_notes" >>= decList decObsidian
    let ia ← getField fs "instapaper_articles" >>= decList decInstapaper
    let ce ← getField fs "calendar_events" >>= decList decCalendar
    let hd ← getField fs "health_data" >>= decList decHealth
    pure ⟨tp, tt, ob, ia, ce, hd⟩
  | _ => none

/-- The file system visible to the cache store: a map from paths to the
JSON documents written there (newest write first). -/
abbrev FS := List (String × Json)

def fsRead (p : String) (fs : FS) : Option Json :=
  (fs.find? fun kv => kv.1 == p).map fun kv => kv.2

/-- `Cache.to_path`: serialize the cache and write it at `path`. -/
def to_path (c : Cache) (path : String) (fs : FS) : FS := (path, encCache c) :: fs

/-- `Cache.from_path`: read the file at `path` and validate it;
`none` models a raised error (missing file or failed validation). -/
def from_path (path : String) (fs : FS) : Option Cache :=
  fsRead path fs >>= decCache

/-- `load_cache` from `src/cache.py`: missing file or any
deserialization failure falls back to a fresh empty cache. -/
def load_cache (path : String) (fs : FS) : Cache :=
  match fsRead path fs with
  | some j =>
    match decCache j with
    | some c => c
    | none => emptyCache
  | none => emptyCache

/-- `get_all_nodes` (`src/src/query.py`): concatenate the per-source
collections of the loaded cache, in source order. -/
def get_all_nodes (c : Cache) : List Node :=
  (c.obsidian_notes.map Node.obsidian) ++ (c.todoist_tasks.map Node.todoist) ++
  (c.instapaper_articles.map Node.instapaper) ++ (c.calendar_events.map Node.calendar) ++
  (c.health_data.map Node.health)

/-! The cross-process cache lock (`CacheLock` in `src/cache.py`), as the
pure retry/backoff/timeout state machine of its `__enter__`/`__exit__`.
Attempt `i` is made after `i` sleeps of 0.5 s, so at elapsed time
`500 * i` milliseconds (attempt work itself idealised as instantaneous);
`outcomes i` tells whether the `flock` call of attempt `i` succeeds. -/

inductive LockResult where
  | held (attempt : Nat)
  | timedOut
deriving DecidableEq, Repr

/-- The `while time.time() - start_time < self.timeout` loop of
`CacheLock.__enter__`.  `fuel` bounds the iterations; `enterLock` supplies
enough fuel for every iteration the time bound admits. -/
def enterAux (outcomes : Nat → Bool) (timeoutMs : Nat) : Nat → Nat → LockResult
  | _, 0 => .timedOut
  | i, fuel + 1 =>
    if 500 * i < timeoutMs then
      if outcomes i then .held i
      else enterAux outcomes timeoutMs (i + 1) fuel
    else .timedOut

/-- `CacheLock.__enter__` with timeout `timeoutMs` milliseconds. -/
def enterLock (outcomes : Nat → Bool) (timeoutMs : Nat) : LockResult :=
  enterAux outcomes timeoutMs 0 (timeoutMs / 500 + 1)

/-- Possible behaviours of the release sequence in `CacheLock.__exit__`:
both `flock(LOCK_UN)` and `close()` succeed, `flock` raises (so the
`close()` on the next line is skipped), or `close` raises after a
successful unlock. -/
inductive ReleaseOutcome where
  | releaseOk
  | unlockRaises
  | closeRaises
deriving DecidableEq, Repr

/-- Observable effect of `CacheLock.__exit__`. -/
structure ExitEffect where
  released : Bool
  handleClosed : Bool
  errorReported : Bool
  raisedNew : Bool
deriving DecidableEq, Repr

/-- `CacheLock.__exit__`: when a handle is held, attempt unlock then close
inside `try`; any exception is caught and printed (`errorReported`), never
re-raised (`raisedNew` is always false, so an in-flight exception of the
protected block is never masked); the `finally` clears the handle field. -/
def lockExit (hasHandle : Bool) (r : ReleaseOutcome) : ExitEffect :=
  if hasHandle then
    match r with
    | .releaseOk => ⟨true, true, false, false⟩
    | .unlockRaises => ⟨false, false, true, false⟩
    | .closeRaises => ⟨true, false, true, false⟩
  else ⟨false, false, false, false⟩

/-! Auxiliary definitions used only to state theorems. -/

/-- A token is offending exactly when it lacks a colon or its key (the text
before the first colon) is not one of the four recognized keys. -/
def isOffending (part : String) : Bool :=
  match splitFirstColon part with
  | some kv => !(kv.1 = "source" || kv.1 = "tag" || kv.1 = "from" || kv.1 = "to")
  | none => true

/-- Spec-side description of duplicate-key resolution: the raw value of the
last token whose key equals `key`, scanning tokens from the end. -/
def lastValueFor (key : String) : List String → Option String
  | [] => none
  | p :: ps =>
    match lastValueFor key ps with
    | some v => some v
    | none =>
      match splitFirstColon p with
      | some kv => if kv.1 = key then some kv.2 else none
      | none => none

/-- A record survives the partition step of `run` unless it is an
Instapaper article with an absent date. -/
def keepNode (n : Node) : Bool := !(isInstapaperNode n && n.date.isNone)

/-- All filter lambdas of the query accept the node. -/
def passesAll (q : Query) (n : Node) : Bool := (get_query_lambdas q).all fun f => f n

/-! Concrete records for the closed evaluation theorems. -/

def c1Dated : TodoistNode :=
  ⟨"t1", [], some (mkDT 2025 1 1 0 0 0 0), "id1", "c1", none, "p1", none, [], 1,
   none, none, none, none, none⟩

def c1Undated : TodoistNode :=
  ⟨"t2", [], none, "id2", "c2", none, "p1", none, [], 1,
   none, none, none, none, none⟩

def c2Task : TodoistNode :=
  ⟨"task", ["work"], some (mkDT 2025 1 1 0 0 0 0), "id1", "c1", none, "p1", none, [], 1,
   none, none, none, none, none⟩

def c2Note : ObsidianNode :=
  ⟨"note", ["health"], some (mkDT 2025 6 1 0 0 0 0), "/v/note.md", "body", .nil⟩

def c2Article : InstapaperNode :=
  ⟨"article", ["work"], none, "http://a", "article", "unread", false, 0, none⟩

def c2Collection : List Node := [.obsidian c2Note, .todoist c2Task, .instapaper c2Article]

def c2QueryString : String := "tag:work from:2025-01-01 to:2025-12-31"

def c6Article : InstapaperNode :=
  ⟨"a6", [], none, "http://b", "a6", "unread", false, 0, none⟩

def c9Dated : TodoistNode :=
  ⟨"t9a", [], some (mkDT 2025 1 1 0 0 0 0), "id9a", "c", none, "p", none, [], 1,
   none, none, none, none, none⟩

def c9Undated : TodoistNode :=
  ⟨"t9b", [], none, "id9b", "c", none, "p", none, [], 1,
   none, none, none, none, none⟩

def c3UndatedNode : Node := .health ⟨"h3", [], none, .nil⟩

/-- The filter spec that `tag:work from:2025-01-01 to:2025-12-31` parses to. -/
def c2Query : Query :=
  ⟨none, some ["work"], some (mkDT 2025 1 1 0 0 0 0), some (endOfDay (mkDT 2025 12 31 0 0 0 0))⟩

/-- Dict-field stability over a whole cache: every untyped `dict` field
of every record holds only JSON-stable values. -/
def cacheStable (c : Cache) : Bool :=
  c.obsidian_notes.all (fun n => pyValDictStable n.yaml_content) &&
  c.health_data.all (fun n => pyValDictStable n.health_metrics)

/-- A cache whose one note's front matter holds a date object, exactly as
`yaml.safe_load` produces for a front-matter `date:` entry (obsidian.py
stores the loaded mapping unchanged in `yaml_content`). -/
def c8DateCache : Cache :=
  ⟨[], [], [⟨"note", [], some (mkDT 2025 1 1 0 0 0 0), "/v/n.md", "body",
    .cons "date" (.pdate (mkDT 2025 1 1 0 0 0 0)) .nil⟩], [], [], []⟩

/-- What loading the saved `c8DateCache` actually yields: the date value
has become its ISO string. -/
def c8DateCacheLoaded : Cache :=
  ⟨[], [], [⟨"note", [], some (mkDT 2025 1 1 0 0 0 0), "/v/n.md", "body",
    .cons "date" (.pstr "2025-01-01") .nil⟩], [], [], []⟩

/-- A stable cache exercising ints, floats (`pfloat 3 (-1)` is 1.5),
strings, nested lists and nested mappings in the dict fields. -/
def c8StableCache : Cache :=
  ⟨[⟨"p1", "proj"⟩], [],
   [⟨"n", ["t"], some (mkDT 2025 1 1 0 0 0 0), "/p", "md",
     .cons "k" (.pdict (.cons "n2" (.pfloat 3 (-1)) .nil))
       (.cons "l" (.plist (.cons (.pint 2) (.cons (.pstr "x") .nil))) .nil)⟩],
   [], [],
   [⟨"2025-01-01", [], some (mkDT 2025 1 1 0 0 0 0),
     .cons "steps" (.pint 10000) (.cons "score" (.pfloat 3 (-1)) .nil)⟩]⟩

/-! Theorems. -/

/-- C1: evaluation of the code at the failing input.  With a collection of
one dated and one undated record and the empty query, the sort of `run`
places the undated record BEFORE the dated one: the sort key
`(date is None, date)` makes the undated key `(True, None)` the largest
tuple, and `reverse=True` lists largest first.  This contradicts the
claimed order (concrete dates first, absent dates last), which is also
what the help text in the same source file documents. -/
theorem c1_undated_sorted_first :
    runPartitions 0 [Node.todoist c1Dated, Node.todoist c1Undated] "" =
      Except.ok ⟨[], [Node.todoist c1Undated, Node.todoist c1Dated], [], [], []⟩ ∧
    sortNodes [Node.todoist c1Dated, Node.todoist c1Undated] =
      [Node.todoist c1Undated, Node.todoist c1Dated] := by
  constructor
  · decide
  · decide

/-- C2 counterexample: on the claimed scenario collection and query, the
result contains the Task only — the Article, although it passes the tag
and date filters, is dropped because the partition step excludes
Instapaper articles with an absent date; so the claim that the run returns
the Task and the Article (Task first) is false at this input. -/
theorem c2_article_dropped :
    runPartitions 0 c2Collection c2QueryString =
      Except.ok ⟨[], [Node.todoist c2Task], [], [], []⟩ ∧
    (Partitions.all ⟨[], [Node.todoist c2Task], [], [], []⟩).contains
      (Node.instapaper c2Article) = false := by
  constructor
  · decide
  · decide

/-- C2 amended: the query returns exactly the Task.  The Note fails the
tag filter; the Article passes every filter lambda but is excluded by the
partition step, which drops Instapaper articles with an absent date. -/
theorem c2_amended_task_only :
    runPartitions 0 c2Collection c2QueryString =
      Except.ok ⟨[], [Node.todoist c2Task], [], [], []⟩ ∧
    from_string 0 c2QueryString = .ok c2Query ∧
    passesAll c2Query (Node.todoist c2Task) = true ∧
    passesAll c2Query (Node.obsidian c2Note) = false ∧
    passesAll c2Query (Node.instapaper c2Article) = true := by
  refine ⟨by decide, by decide, by decide, by decide, by decide⟩

/-- C3: the from/to predicates accept a record exactly when its date is
absent or on the requested side of the bound; hence a record with an
absent date is never excluded by a from or to filter; and these
predicates are exactly the lambdas that `get_query_lambdas` installs for
resolved bounds. -/
theorem c3_date_predicates (f t : DT) (n : Node) :
    (from_date_filter f n = true ↔ n.date = none ∨ ∃ d, n.date = some d ∧ f ≤ d) ∧
    (to_date_filter t n = true ↔ n.date = none ∨ ∃ d, n.date = some d ∧ d ≤ t) ∧
    (n.date = none → from_date_filter f n = true ∧ to_date_filter t n = true) ∧
    (∀ q : Query, q.from_date = some f → from_date_filter f ∈ get_query_lambdas q) ∧
    (∀ q : Query, q.to_date = some t → to_date_filter t ∈ get_query_lambdas q) := by
  refine ⟨?_, ?_, ?_, ?_, ?_⟩
  · cases hd : n.date <;> simp [from_date_filter, hd]
  · cases hd : n.date <;> simp [to_date_filter, hd]
  · intro hd
    constructor <;> simp [from_date_filter, to_date_filter, hd]
  · intro q hq
    simp [get_query_lambdas, hq]
  · intro q hq
    simp [get_query_lambdas, hq]

/-- C3 witness: the concrete undated record passes both filters. -/
theorem c3_witness :
    from_date_filter 0 c3UndatedNode = true ∧ to_date_filter 0 c3UndatedNode = true :=
  (c3_date_predicates 0 0 c3UndatedNode).2.2.1 rfl

/-- C4: the date-expression parser tries the relative grammar first and
the absolute grammar second; when both fail it raises the error carrying
the original input; `-7d` at time `now` is `now` minus `7 * 86400`
seconds, `2025-01-01` is midnight of that day, and the month/year units
are the fixed 30-day and 365-day offsets. -/
theorem c4_date_parsing (now : DT) :
    (∀ s d, parse_relative_date now s = some d → parse_date now s = .ok d) ∧
    (∀ s, parse_relative_date now s = none → strptimeYmd s = none →
      parse_date now s = .error (QueryError.parseDate s)) ∧
    parse_date now "-7d" = .ok (now - 7 * 86400 * 1000000) ∧
    parse_date now "2025-01-01" = .ok (mkDT 2025 1 1 0 0 0 0) ∧
    mkDT 2025 1 1 0 0 0 0 % usPerDay = 0 ∧
    parse_date now "+2m" = .ok (now + 2 * 30 * 86400 * 1000000) ∧
    parse_date now "-1y" = .ok (now - 365 * 86400 * 1000000) := by
  refine ⟨?_, ?_, by rfl, by rfl, by decide, by rfl, by rfl⟩
  · intro s d h
    simp [parse_date, h]
  · intro s h1 h2
    simp [parse_date, h1, h2]

/-- C4 witness: both grammars fail on `bad` and the parser reports it;
the relative grammar wins on `-7d`. -/
theorem c4_witness :
    parse_date 0 "bad" = .error (QueryError.parseDate "bad") ∧
    parse_date 0 "-7d" = .ok (0 - 7 * 86400 * 1000000) := by
  have h := c4_date_parsing 0
  exact ⟨h.2.1 "bad" (by decide) (by decide), h.2.2.1⟩

/-- The token loop appends exactly the offending tokens, in order, to the
unrecognized list. -/
theorem foldl_applyPart_unrecognized (parts : List String) (acc : RawParts) :
    (parts.foldl applyPart acc).unrecognized =
      acc.unrecognized ++ parts.filter isOffending := by
  induction parts generalizing acc with
  | nil => simp
  | cons p ps ih =>
    rw [List.foldl_cons, ih]
    cases h : splitFirstColon p with
    | none =>
      simp [applyPart, h, isOffending]
    | some kv =>
      by_cases h1 : kv.1 = "source"
      · simp [applyPart, h, isOffending, h1]
      · by_cases h2 : kv.1 = "tag"
        · simp [applyPart, h, isOffending, h1, h2]
        · by_cases h3 : kv.1 = "from"
          · simp [applyPart, h, isOffending, h1, h2, h3]
          · by_cases h4 : kv.1 = "to"
            · simp [applyPart, h, isOffending, h1, h2, h3, h4]
            · simp [applyPart, h, isOffending, h1, h2, h3, h4]

/-- C5: whenever the query string contains offending tokens (no colon, or
unrecognized key), `from_string` raises exactly one aggregate error whose
payload lists every offending token in order — not just the first. -/
theorem c5_aggregate_error (now : DT) (qs : String)
    (h : (pySplit qs).filter isOffending ≠ []) :
    from_string now qs = .error (.invalidQuery ((pySplit qs).filter isOffending)) := by
  have hu : (parseParts (pySplit qs)).unrecognized = (pySplit qs).filter isOffending := by
    rw [parseParts, foldl_applyPart_unrecognized]
    rfl
  simp [from_string, hu, h]

/-- C5 witness: both bad tokens of a concrete query are reported together. -/
theorem c5_witness :
    from_string 0 "foo tag:x bar:1" = .error (.invalidQuery ["foo", "bar:1"]) := by
  have h := c5_aggregate_error 0 "foo tag:x bar:1" (by decide)
  exact h.trans (by decide)

/-- The lambda list is empty exactly when no filter field is populated. -/
theorem get_query_lambdas_isEmpty (q : Query) :
    (get_query_lambdas q).isEmpty = true ↔
      q.source = none ∧ q.tag = none ∧ q.from_date = none ∧ q.to_date = none := by
  obtain ⟨s, t, f, td⟩ := q
  cases s <;> cases t <;> cases f <;> cases td <;> simp [get_query_lambdas]

/-- C9 counterexample: with a dated and an undated record memoized and the
empty query, the memoized collection observed after `run` is reordered
(the in-place sort acted on the memoized list itself), refuting the claim
that `run` leaves it unchanged. -/
theorem c9_memo_reordered :
    memoAfterRun 0 [Node.todoist c9Dated, Node.todoist c9Undated] "" =
      [Node.todoist c9Undated, Node.todoist c9Dated] ∧
    [Node.todoist c9Undated, Node.todoist c9Dated] ≠
      [Node.todoist c9Dated, Node.todoist c9Undated] := by
  constructor
  · decide
  · decide

/-- C9 amended: `run` leaves the memoized collection untouched whenever at
least one filter field is populated (each active filter rebuilds the list
by comprehension); with zero populated fields the in-place sort reorders
the memoized list itself, so a later observer sees the sorted order. -/
theorem c9_amended (now : DT) (nodes : List Node) (qs : String) (q : Query)
    (h : from_string now qs = .ok q) :
    ((q.source ≠ none ∨ q.tag ≠ none ∨ q.from_date ≠ none ∨ q.to_date ≠ none) →
      memoAfterRun now nodes qs = nodes) ∧
    (q.source = none → q.tag = none → q.from_date = none → q.to_date = none →
      memoAfterRun now nodes qs = sortNodes nodes) := by
  constructor
  · intro hne
    have hq : ¬ (get_query_lambdas q).isEmpty = true := by
      rw [get_query_lambdas_isEmpty]
      rcases hne with h1 | h1 | h1 | h1 <;> tauto
    simp [memoAfterRun, h, hq]
  · intro h1 h2 h3 h4
    have hq : (get_query_lambdas q).isEmpty = true :=
      (get_query_lambdas_isEmpty q).mpr ⟨h1, h2, h3, h4⟩
    simp [memoAfterRun, h, hq]

/-- C9 witness: a populated tag field leaves the memo unchanged. -/
theorem c9_witness :
    memoAfterRun 0 [Node.todoist c9Dated] "tag:x" = [Node.todoist c9Dated] := by
  have h := c9_amended 0 [Node.todoist c9Dated] "tag:x" ⟨none, some ["x"], none, none⟩ (by decide)
  exact h.1 (by simp)

/-- Splitting at the first colon recovers a colon-free key and the full
remainder, even when the value contains colons. -/
theorem splitFirstColonGo_append (k v : List Char) (hk : ':' ∉ k) :
    splitFirstColonGo (k ++ ':' :: v) = some (k, v) := by
  induction k with
  | nil => simp [splitFirstColonGo]
  | cons c cs ih =>
    have hc : ¬ c = ':' := fun e => hk (e ▸ List.mem_cons_self c cs)
    have hcs : ':' ∉ cs := fun m => hk (List.mem_cons_of_mem _ m)
    simp [splitFirstColonGo, hc, ih hcs]

/-- The raw `from` value after the token loop is the value of the last
`from` token, falling back to the accumulator. -/
theorem foldl_applyPart_fromRaw (parts : List String) (acc : RawParts) :
    (parts.foldl applyPart acc).fromRaw =
      match lastValueFor "from" parts with
      | some v => some v
      | none => acc.fromRaw := by
  induction parts generalizing acc with
  | nil => simp [lastValueFor]
  | cons p ps ih =>
    rw [List.foldl_cons, ih]
    cases hl : lastValueFor "from" ps with
    | some v => simp [lastValueFor, hl]
    | none =>
      simp only [lastValueFor, hl]
      cases h : splitFirstColon p with
      | none => simp [applyPart, h]
      | some kv =>
        by_cases h1 : kv.1 = "source"
        · simp [applyPart, h, h1]
        · by_cases h2 : kv.1 = "tag"
          · simp [applyPart, h, h1, h2]
          · by_cases h3 : kv.1 = "from"
            · simp [applyPart, h, h1, h2, h3]
            · by_cases h4 : kv.1 = "to"
              · simp [applyPart, h, h1, h2, h3, h4]
              · simp [applyPart, h, h1, h2, h3, h4]

/-- The raw `to` value after the token loop is the value of the last
`to` token, falling back to the accumulator. -/
theorem foldl_applyPart_toRaw (parts : List String) (acc : RawParts) :
    (parts.foldl applyPart acc).toRaw =
      match lastValueFor "to" parts with
      | some v => some v
      | none => acc.toRaw := by
  induction parts generalizing acc with
  | nil => simp [lastValueFor]
  | cons p ps ih =>
    rw [List.foldl_cons, ih]
    cases hl : lastValueFor "to" ps with
    | some v => simp [lastValueFor, hl]
    | none =>
      simp only [lastValueFor, hl]
      cases h : splitFirstColon p with
      | none => simp [applyPart, h]
      | some kv =>
        by_cases h1 : kv.1 = "source"
        · simp [applyPart, h, h1]
        · by_cases h2 : kv.1 = "tag"
          · simp [applyPart, h, h1, h2]
          · by_cases h3 : kv.1 = "from"
            · simp [applyPart, h, h1, h2, h3]
            · by_cases h4 : kv.1 = "to"
              · simp [applyPart, h, h1, h2, h3, h4]
              · simp [applyPart, h, h1, h2, h3, h4]

/-- The parsed `source` list after the token loop comes from the last
`source` token, split on commas, falling back to the accumulator. -/
theorem foldl_applyPart_source (parts : List String) (acc : RawParts) :
    (parts.foldl applyPart acc).source =
      match lastValueFor "source" parts with
      | some v => some (splitCommaStrip v)
      | none => acc.source := by
  induction parts generalizing acc with
  | nil => simp [lastValueFor]
  | cons p ps ih =>
    rw [List.foldl_cons, ih]
    cases hl : lastValueFor "source" ps with
    | some v => simp [lastValueFor, hl]
    | none =>
      simp only [lastValueFor, hl]
      cases h : splitFirstColon p with
      | none => simp [applyPart, h]
      | some kv =>
        by_cases h1 : kv.1 = "source"
        · simp [applyPart, h, h1]
        · by_cases h2 : kv.1 = "tag"
          · simp [applyPart, h, h1, h2]
          · by_cases h3 : kv.1 = "from"
            · simp [applyPart, h, h1, h2, h3]
            · by_cases h4 : kv.1 = "to"
              · simp [applyPart, h, h1, h2, h3, h4]
              · simp [applyPart, h, h1, h2, h3, h4]

/-- Validation of the source list never raises the aggregate token error. -/
theorem validate_source_not_invalidQuery (o : Option (List String)) (l : List String) :
    validate_source o ≠ .error (.invalidQuery l) := by
  unfold validate_source
  cases o with
  | none => simp
  | some ss => split <;> first | (split <;> simp) | simp

/-- A failing date parse reports exactly the offending input. -/
theorem parse_date_error_shape (now : DT) (s : String) (e : QueryError)
    (h : parse_date now s = .error e) : e = .parseDate s := by
  unfold parse_date at h
  split at h
  · exact Except.noConfusion h
  · split at h
    · exact Except.noConfusion h
    · injection h with h1
      exact h1.symm

/-- Date-field validation never raises the aggregate token error. -/
theorem parseDateOpt_not_invalidQuery (now : DT) (o : Option String) (l : List String) :
    parseDateOpt now o ≠ .error (.invalidQuery l) := by
  cases o with
  | none => simp [parseDateOpt]
  | some s =>
    cases hp : parse_date now s with
    | ok d => simp [parseDateOpt, hp, Except.map]
    | error e =>
      have he := parse_date_error_shape now s e hp
      simp [parseDateOpt, hp, Except.map, he]

/-- The parsed `tag` list after the token loop comes from the last `tag`
token, split on commas, falling back to the accumulator. -/
theorem foldl_applyPart_tag (parts : List String) (acc : RawParts) :
    (parts.foldl applyPart acc).tag =
      match lastValueFor "tag" parts with
      | some v => some (splitCommaStrip v)
      | none => acc.tag := by
  induction parts generalizing acc with
  | nil => simp [lastValueFor]
  | cons p ps ih =>
    rw [List.foldl_cons, ih]
    cases hl : lastValueFor "tag" ps with
    | some v => simp [lastValueFor, hl]
    | none =>
      simp only [lastValueFor, hl]
      cases h : splitFirstColon p with
      | none => simp [applyPart, h]
      | some kv =>
        by_cases h1 : kv.1 = "source"
        · simp [applyPart, h, h1]
        · by_cases h2 : kv.1 = "tag"
          · simp [applyPart, h, h1, h2]
          · by_cases h3 : kv.1 = "from"
            · simp [applyPart, h, h1, h2, h3]
            · by_cases h4 : kv.1 = "to"
              · simp [applyPart, h, h1, h2, h3, h4]
              · simp [applyPart, h, h1, h2, h3, h4]


/-- C10: each token is split only at its first colon (a value may contain
colons); a recognized key appearing in several tokens keeps the value of
its last occurrence for all four fields; a query whose tokens are all
recognized never raises the aggregate token error; and a concrete query
with duplicated `tag` and `from` keys parses to the last occurrences. -/
theorem c10_duplicate_keys :
    (∀ (k v : String), ':' ∉ k.data → splitFirstColon (k ++ ":" ++ v) = some (k, v)) ∧
    (∀ parts : List String,
      (parseParts parts).fromRaw = lastValueFor "from" parts ∧
      (parseParts parts).toRaw = lastValueFor "to" parts ∧
      (parseParts parts).source = (lastValueFor "source" parts).map splitCommaStrip ∧
      (parseParts parts).tag = (lastValueFor "tag" parts).map splitCommaStrip) ∧
    (∀ (now : DT) (qs : String) (l : List String),
      (pySplit qs).filter isOffending = [] →
      from_string now qs ≠ .error (.invalidQuery l)) ∧
    from_string 0 "tag:a tag:b,c from:2025-01-01 from:2025-03-04 to:2025-05-06" =
      .ok ⟨none, some ["b", "c"], some (mkDT 2025 3 4 0 0 0 0),
           some (endOfDay (mkDT 2025 5 6 0 0 0 0))⟩ := by
  refine ⟨?_, ?_, ?_, by decide⟩
  · intro k v hk
    have hd : (k ++ ":" ++ v).data = k.data ++ ':' :: v.data := by
      show k.data ++ [':'] ++ v.data = k.data ++ ':' :: v.data
      rw [List.append_assoc]
      rfl
    simp [splitFirstColon, hd, splitFirstColonGo_append k.data v.data hk]
  · intro parts
    refine ⟨?_, ?_, ?_, ?_⟩
    · rw [parseParts, foldl_applyPart_fromRaw]
      cases lastValueFor "from" parts <;> rfl
    · rw [parseParts, foldl_applyPart_toRaw]
      cases lastValueFor "to" parts <;> rfl
    · rw [parseParts, foldl_applyPart_source]
      cases lastValueFor "source" parts <;> rfl
    · rw [parseParts, foldl_applyPart_tag]
      cases lastValueFor "tag" parts <;> rfl
  · intro now qs l h0
    have hu : (parseParts (pySplit qs)).unrecognized = [] := by
      rw [parseParts, foldl_applyPart_unrecognized, h0]
      rfl
    simp only [from_string, hu]
    rw [if_neg (by simp)]
    cases hvs : validate_source (parseParts (pySplit qs)).source with
    | error e =>
      intro heq
      have heq2 : Except.error (α := Query) e = .error (.invalidQuery l) := heq
      have he : e = .invalidQuery l := by injection heq2
      exact validate_source_not_invalidQuery _ l (by rw [hvs, he])
    | ok src =>
      cases hvf : parseDateOpt now (parseParts (pySplit qs)).fromRaw with
      | error e =>
        intro heq
        have heq2 : Except.error (α := Query) e = .error (.invalidQuery l) := heq
        have he : e = .invalidQuery l := by injection heq2
        exact parseDateOpt_not_invalidQuery now _ l (by rw [hvf, he])
      | ok fromD =>
        cases hvt : parseDateOpt now (parseParts (pySplit qs)).toRaw with
        | error e =>
          intro heq
          have heq2 : Except.error (α := Query) e = .error (.invalidQuery l) := heq
          have he : e = .invalidQuery l := by injection heq2
          exact parseDateOpt_not_invalidQuery now _ l (by rw [hvt, he])
        | ok toD =>
          cases fromD with
          | none =>
            cases toD with
            | none => simp
            | some t => simp
          | some f =>
            cases toD with
            | none => simp
            | some t =>
              by_cases hft : t < f
              · simp [hft]
              · simp [hft]

/-- C10 witness: a colon-carrying value splits intact, and a query with
duplicated recognized keys raises no aggregate token error. -/
theorem c10_witness :
    splitFirstColon ("tag" ++ ":" ++ "a:b") = some ("tag", "a:b") ∧
    from_string 0 "from:2025-01-01 from:2025-03-04" ≠ .error (.invalidQuery []) := by
  have h := c10_duplicate_keys
  exact ⟨h.1 "tag" "a:b" (by decide),
         h.2.2.1 0 "from:2025-01-01 from:2025-03-04" [] (by decide)⟩

/-- The acquisition loop times out exactly when every attempt inside the
timeout window fails, provided enough fuel for the whole window. -/
theorem enterAux_timedOut_iff (o : Nat → Bool) (t : Nat) :
    ∀ (fuel i : Nat), t ≤ 500 * (i + fuel) →
      (enterAux o t i fuel = .timedOut ↔ ∀ k, i ≤ k → 500 * k < t → o k = false) := by
  intro fuel
  induction fuel with
  | zero =>
    intro i hf
    constructor
    · intro _ k hk h500
      exfalso
      have := Nat.mul_le_mul_left 500 hk
      omega
    · intro _
      rfl
  | succ fuel ih =>
    intro i hf
    by_cases hlt : 500 * i < t
    · by_cases ho : o i = true
      · simp only [enterAux, if_pos hlt, ho, if_true]
        constructor
        · intro h
          exact absurd h (by simp)
        · intro hall
          exact absurd (hall i (Nat.le_refl i) hlt) (by simp [ho])
      · simp only [enterAux, if_pos hlt]
        rw [if_neg ho, ih (i + 1) (by omega)]
        constructor
        · intro hall k hk h500
          rcases Nat.eq_or_lt_of_le hk with heq | hlt2
          · rw [← heq]
            exact Bool.eq_false_iff.mpr ho
          · exact hall k (by omega) h500
        · intro hall k hk h500
          exact hall k (by omega) h500
    · simp only [enterAux, if_neg hlt]
      constructor
      · intro _ k hk h500
        exfalso
        have := Nat.mul_le_mul_left 500 hk
        omega
      · intro _
        trivial

/-- The acquisition loop returns at the first successful attempt inside
the timeout window, provided enough fuel for it. -/
theorem enterAux_held (o : Nat → Bool) (t : Nat) :
    ∀ (fuel i j : Nat), i ≤ j → j < i + fuel → 500 * j < t → o j = true →
      (∀ k, i ≤ k → k < j → o k = false) → enterAux o t i fuel = .held j := by
  intro fuel
  induction fuel with
  | zero =>
    intro i j hij hjf
    omega
  | succ fuel ih =>
    intro i j hij hjf hjt hoj hmin
    have hit : 500 * i < t := by
      have := Nat.mul_le_mul_left 500 hij
      omega
    rcases Nat.eq_or_lt_of_le hij with heq | hlt
    · rw [← heq] at hoj
      simp only [enterAux, if_pos hit, hoj, if_true]
      rw [heq]
    · have hoi : o i = false := hmin i (Nat.le_refl i) hlt
      simp only [enterAux, if_pos hit, hoi, if_false]
      exact ih (i + 1) j (by omega) (by omega) hjt hoj (fun k hk1 hk2 => hmin k (by omega) hk2)

/-- C7 counterexample: when the unlock call raises during release, the
`close()` on the following line is skipped, so the file handle is NOT
closed on that exit path (the failure is still contained, not re-raised);
this refutes the claim that the handle is closed on every exit. -/
theorem c7_handle_not_closed :
    (lockExit true ReleaseOutcome.unlockRaises).handleClosed = false ∧
    (lockExit true ReleaseOutcome.unlockRaises).raisedNew = false := by
  constructor
  · rfl
  · rfl

/-- C7 amended: acquisition is retried at the fixed 0.5 s backoff and
times out exactly when every attempt inside the window fails (the first
success inside the window acquires the lock); on exit nothing is ever
re-raised (so an in-flight error is never masked), a failed release is
reported, and the handle is closed whenever the release succeeds. -/
theorem c7_lock_amended (o : Nat → Bool) (t : Nat) :
    (enterLock o t = .timedOut ↔ ∀ i, 500 * i < t → o i = false) ∧
    (∀ j, 500 * j < t → o j = true → (∀ i, i < j → o i = false) →
      enterLock o t = .held j) ∧
    (∀ (hh : Bool) (r : ReleaseOutcome), (lockExit hh r).raisedNew = false) ∧
    (∀ r : ReleaseOutcome, (lockExit true r).released = false →
      (lockExit true r).errorReported = true) ∧
    (lockExit true .releaseOk).handleClosed = true := by
  have hm := Nat.div_add_mod t 500
  have hr := Nat.mod_lt t (show 0 < 500 by norm_num)
  refine ⟨?_, ?_, ?_, ?_, rfl⟩
  · rw [enterLock, enterAux_timedOut_iff o t (t / 500 + 1) 0 (by omega)]
    constructor
    · intro hall i h500
      exact hall i (Nat.zero_le i) h500
    · intro hall k _ h500
      exact hall k h500
  · intro j hjt hoj hmin
    exact enterAux_held o t (t / 500 + 1) 0 j (Nat.zero_le j) (by omega) hjt hoj
      (fun k _ hk => hmin k hk)
  · intro hh r
    cases hh <;> cases r <;> rfl
  · intro r hrel
    cases r
    · exact absurd hrel (by simp [lockExit])
    · rfl
    · rfl

/-- C7 witness: with contention for two attempts and success at the third,
a 2-second timeout acquires at attempt 2; under permanent contention the
same timeout fails with the timeout error. -/
theorem c7_witness :
    enterLock (fun i => decide (i = 2)) 2000 = .held 2 ∧
    enterLock (fun _ => false) 2000 = .timedOut := by
  have h1 := c7_lock_amended (fun i => decide (i = 2)) 2000
  have h2 := c7_lock_amended (fun _ => false) 2000
  refine ⟨h1.2.1 2 (by norm_num) (by decide) ?_, h2.1.mpr (fun i _ => rfl)⟩
  intro i hi
  interval_cases i <;> decide

/-- Counting elements of a filtered list at an element the filter rejects. -/
theorem count_filter_of_neg {α : Type} [DecidableEq α] {p : α → Bool} {b : α}
    (h : p b = false) (l : List α) : (l.filter p).count b = 0 := by
  apply List.count_eq_zero.mpr
  intro hmem
  rw [List.mem_filter] at hmem
  rw [hmem.2] at h
  cases h

/-- The five variant partitions of a list, concatenated, are a permutation
of the list minus the Instapaper records with an absent date. -/
theorem partition_concat_perm (l : List Node) :
    (l.filter isObsidianNode ++ l.filter isTodoistNode ++
      l.filter (fun n => isInstapaperNode n && n.date.isSome) ++
      l.filter isCalendarNode ++ l.filter isHealthNode).Perm (l.filter keepNode) := by
  rw [List.perm_iff_count]
  intro x
  simp only [List.count_append]
  cases x with
  | obsidian n =>
    rw [List.count_filter (show isObsidianNode (Node.obsidian n) = true from rfl),
        count_filter_of_neg (show isTodoistNode (Node.obsidian n) = false from rfl) l,
        count_filter_of_neg (p := fun m => isInstapaperNode m && m.date.isSome)
          (show (isInstapaperNode (Node.obsidian n) && (Node.obsidian n).date.isSome) = false
            from rfl) l,
        count_filter_of_neg (show isCalendarNode (Node.obsidian n) = false from rfl) l,
        count_filter_of_neg (show isHealthNode (Node.obsidian n) = false from rfl) l,
        List.count_filter (show keepNode (Node.obsidian n) = true from rfl)]
    omega
  | todoist n =>
    rw [count_filter_of_neg (show isObsidianNode (Node.todoist n) = false from rfl) l,
        List.count_filter (show isTodoistNode (Node.todoist n) = true from rfl),
        count_filter_of_neg (p := fun m => isInstapaperNode m && m.date.isSome)
          (show (isInstapaperNode (Node.todoist n) && (Node.todoist n).date.isSome) = false
            from rfl) l,
        count_filter_of_neg (show isCalendarNode (Node.todoist n) = false from rfl) l,
        count_filter_of_neg (show isHealthNode (Node.todoist n) = false from rfl) l,
        List.count_filter (show keepNode (Node.todoist n) = true from rfl)]
    omega
  | instapaper n =>
    cases hd : n.date with
    | none =>
      rw [count_filter_of_neg (show isObsidianNode (Node.instapaper n) = false from rfl) l,
          count_filter_of_neg (show isTodoistNode (Node.instapaper n) = false from rfl) l,
          count_filter_of_neg (p := fun m => isInstapaperNode m && m.date.isSome)
            (show (isInstapaperNode (Node.instapaper n) && (Node.instapaper n).date.isSome) = false
              by simp [isInstapaperNode, Node.date, hd]) l,
          count_filter_of_neg (show isCalendarNode (Node.instapaper n) = false from rfl) l,
          count_filter_of_neg (show isHealthNode (Node.instapaper n) = false from rfl) l,
          count_filter_of_neg (show keepNode (Node.instapaper n) = false
            by simp [keepNode, isInstapaperNode, Node.date, hd]) l]
    | some d =>
      rw [count_filter_of_neg (show isObsidianNode (Node.instapaper n) = false from rfl) l,
          count_filter_of_neg (show isTodoistNode (Node.instapaper n) = false from rfl) l,
          List.count_filter (p := fun m => isInstapaperNode m && m.date.isSome)
            (show (isInstapaperNode (Node.instapaper n) && (Node.instapaper n).date.isSome) = true
              by simp [isInstapaperNode, Node.date, hd]),
          count_filter_of_neg (show isCalendarNode (Node.instapaper n) = false from rfl) l,
          count_filter_of_neg (show isHealthNode (Node.instapaper n) = false from rfl) l,
          List.count_filter (show keepNode (Node.instapaper n) = true
            by simp [keepNode, isInstapaperNode, Node.date, hd])]
      omega
  | calendar n =>
    rw [count_filter_of_neg (show isObsidianNode (Node.calendar n) = false from rfl) l,
        count_filter_of_neg (show isTodoistNode (Node.calendar n) = false from rfl) l,
        count_filter_of_neg (p := fun m => isInstapaperNode m && m.date.isSome)
          (show (isInstapaperNode (Node.calendar n) && (Node.calendar n).date.isSome) = false
            from rfl) l,
        List.count_filter (show isCalendarNode (Node.calendar n) = true from rfl),
        count_filter_of_neg (show isHealthNode (Node.calendar n) = false from rfl) l,
        List.count_filter (show keepNode (Node.calendar n) = true from rfl)]
    omega
  | health n =>
    rw [count_filter_of_neg (show isObsidianNode (Node.health n) = false from rfl) l,
        count_filter_of_neg (show isTodoistNode (Node.health n) = false from rfl) l,
        count_filter_of_neg (p := fun m => isInstapaperNode m && m.date.isSome)
          (show (isInstapaperNode (Node.health n) && (Node.health n).date.isSome) = false
            from rfl) l,
        count_filter_of_neg (show isCalendarNode (Node.health n) = false from rfl) l,
        List.count_filter (show isHealthNode (Node.health n) = true from rfl),
        List.count_filter (show keepNode (Node.health n) = true from rfl)]
    omega

/-- C6 counterexample: with a collection holding one undated Instapaper
article and the empty query, the run returns empty partitions — the
record is dropped, so the claim that the full collection is returned is
false at this input. -/
theorem c6_undated_article_dropped :
    runPartitions 0 [Node.instapaper c6Article] "" = .ok ⟨[], [], [], [], []⟩ ∧
    Partitions.all ⟨[], [], [], [], []⟩ ≠ [Node.instapaper c6Article] := by
  constructor
  · decide
  · decide

/-- C6 amended: the empty query parses to the spec with no populated
fields, and running it returns every record except Instapaper articles
with an absent date, merely permuted (the program sort); no other record
is dropped. -/
theorem c6_empty_query (now : DT) (nodes : List Node) :
    from_string now "" = .ok ⟨none, none, none, none⟩ ∧
    ∃ P : Partitions, runPartitions now nodes "" = .ok P ∧
      P.all.Perm (nodes.filter keepNode) := by
  refine ⟨rfl, ⟨_, rfl, ?_⟩⟩
  have h1 := partition_concat_perm (sortNodes nodes)
  have h2 : (sortNodes nodes).Perm nodes := List.perm_insertionSort _ nodes
  exact h1.trans (h2.filter keepNode)

/-- Decode inverts encode element-wise across an encoded array. -/
theorem decJsonList_enc {α : Type} (enc : α → Json) (dec : Json → Option α)
    (xs : List α) (h : ∀ a ∈ xs, dec (enc a) = some a) :
    decJsonList dec (jarrOfList (xs.map enc)) = some xs := by
  induction xs with
  | nil => rfl
  | cons a l ih =>
    have h1 := h a (List.mem_cons_self a l)
    have h2 := ih fun b hb => h b (List.mem_cons_of_mem a hb)
    simp [jarrOfList, decJsonList, h1, h2]

mutual
/-- A JSON-stable value validates back to itself after serialization. -/
theorem jsonToPyVal_enc (v : PyVal) (h : pyValStable v = true) :
    jsonToPyVal (encPyVal v) = v := by
  cases v with
  | pnull => rfl
  | pbool b => rfl
  | pint n => rfl
  | pfloat m e => rfl
  | pstr s => rfl
  | pdate d => exact absurd h (by simp [pyValStable])
  | plist xs =>
    have hx : pyValListStable xs = true := by simpa [pyValStable] using h
    simp [encPyVal, jsonToPyVal, jsonListToPyVal_enc xs hx]
  | pdict kvs =>
    have hx : pyValDictStable kvs = true := by simpa [pyValStable] using h
    simp [encPyVal, jsonToPyVal, jsonObjToPyVal_enc kvs hx]
/-- Element-wise round trip for list values. -/
theorem jsonListToPyVal_enc (l : PyValList) (h : pyValListStable l = true) :
    jsonListToPyVal (encPyValList l) = l := by
  cases l with
  | nil => rfl
  | cons v rest =>
    have h12 : pyValStable v = true ∧ pyValListStable rest = true := by
      simpa [pyValListStable] using h
    simp [encPyValList, jsonListToPyVal, jsonToPyVal_enc v h12.1,
          jsonListToPyVal_enc rest h12.2]
/-- Entry-wise round trip for nested mappings. -/
theorem jsonObjToPyVal_enc (d : PyValDict) (h : pyValDictStable d = true) :
    jsonObjToPyVal (encPyValDict d) = d := by
  cases d with
  | nil => rfl
  | cons k v rest =>
    have h12 : pyValStable v = true ∧ pyValDictStable rest = true := by
      simpa [pyValDictStable] using h
    simp [encPyValDict, jsonObjToPyVal, jsonToPyVal_enc v h12.1,
          jsonObjToPyVal_enc rest h12.2]
end

theorem decDict_enc (d : PyDict) (h : pyValDictStable d = true) :
    decDict (encDict d) = some d := by
  simp [encDict, decDict, jsonObjToPyVal_enc d h]

theorem decStrList_enc (l : List String) : decStrList (encStrList l) = some l := by
  simp [encStrList, decStrList, decJsonList_enc encStr decStr l (fun a ha => rfl)]

theorem decOptStr_enc (o : Option String) : decOpt decStr (encOpt encStr o) = some o := by
  cases o <;> rfl

theorem decOptDT_enc (o : Option DT) : decOpt decDT (encOpt encDT o) = some o := by
  cases o <;> rfl

theorem decObsidian_enc (n : ObsidianNode) (h : pyValDictStable n.yaml_content = true) :
    decObsidian (encObsidian n) = some n := by
  simp [decObsidian, encObsidian, jobjOfList, getField, decStr, encStr,
        decStrList_enc, decOptDT_enc, decDict_enc n.yaml_content h]

theorem decProject_enc (p : TodoistProject) : decProject (encProject p) = some p := by
  simp [decProject, encProject, jobjOfList, getField, decStr, encStr]

theorem decTodoist_enc (n : TodoistNode) : decTodoist (encTodoist n) = some n := by
  simp [decTodoist, encTodoist, jobjOfList, getField, decStr, encStr, decInt, encInt,
        decStrList_enc, decOptDT_enc, decOptStr_enc]

theorem decInstapaper_enc (n : InstapaperNode) : decInstapaper (encInstapaper n) = some n := by
  simp [decInstapaper, encInstapaper, jobjOfList, getField, decStr, encStr, decInt, encInt,
        decBool, encBool, decStrList_enc, decOptDT_enc, decOptStr_enc]

theorem decCalendar_enc (n : CalendarNode) : decCalendar (encCalendar n) = some n := by
  simp [decCalendar, encCalendar, jobjOfList, getField, decStr, encStr, decDT, encDT,
        decStrList_enc, decOptDT_enc, decOptStr_enc]

theorem decHealth_enc (n : HealthNode) (h : pyValDictStable n.health_metrics = true) :
    decHealth (encHealth n) = some n := by
  simp [decHealth, encHealth, jobjOfList, getField, decStr, encStr,
        decStrList_enc, decOptDT_enc, decDict_enc n.health_metrics h]

theorem decCache_enc (c : Cache) (h : cacheStable c = true) :
    decCache (encCache c) = some c := by
  rw [cacheStable, Bool.and_eq_true, List.all_eq_true, List.all_eq_true] at h
  have hob : ∀ n ∈ c.obsidian_notes, decObsidian (encObsidian n) = some n :=
    fun n hn => decObsidian_enc n (h.1 n hn)
  have hhe : ∀ n ∈ c.health_data, decHealth (encHealth n) = some n :=
    fun n hn => decHealth_enc n (h.2 n hn)
  simp [decCache, encCache, jobjOfList, getField, decList,
        decJsonList_enc encProject decProject c.todoist_projects
          (fun a ha => decProject_enc a),
        decJsonList_enc encTodoist decTodoist c.todoist_tasks
          (fun a ha => decTodoist_enc a),
        decJsonList_enc encObsidian decObsidian c.obsidian_notes hob,
        decJsonList_enc encInstapaper decInstapaper c.instapaper_articles
          (fun a ha => decInstapaper_enc a),
        decJsonList_enc encCalendar decCalendar c.calendar_events
          (fun a ha => decCalendar_enc a),
        decJsonList_enc encHealth decHealth c.health_data hhe]

/-- C8 counterexample: a cache whose note carries a front-matter date
object (as `yaml.safe_load` yields) does NOT round trip: the date value
is serialized to its ISO string and validation of the untyped dict field
reads it back as a plain string, so the loaded cache differs from the
saved one in that field value. -/
theorem c8_date_not_reproduced :
    from_path "cache.json" (to_path c8DateCache "cache.json" []) = some c8DateCacheLoaded ∧
    c8DateCacheLoaded ≠ c8DateCache := by
  constructor
  · decide
  · decide

/-- C8 amended: for every cache whose untyped dict fields hold only
JSON-stable values (no date/datetime objects; nulls, booleans, ints,
floats, strings and nested lists/mappings of these are all fine), saving
to a path and loading from that path reproduces an equal cache — the same
records per variant collection, in the same order, with the same field
values — through both `Cache.from_path` and the error-recovering
`load_cache`. -/
theorem c8_cache_roundtrip_stable (c : Cache) (path : String) (fs : FS)
    (h : cacheStable c = true) :
    from_path path (to_path c path fs) = some c ∧
    load_cache path (to_path c path fs) = c := by
  have hread : fsRead path (to_path c path fs) = some (encCache c) := by
    simp [fsRead, to_path, List.find?]
  constructor
  · simp [from_path, hread, decCache_enc c h]
  · simp [load_cache, hread, decCache_enc c h]

/-- C8 witness: a concrete stable cache with ints, floats, strings,
nested lists and nested mappings in its dict fields round trips exactly. -/
theorem c8_witness :
    cacheStable c8StableCache = true ∧
    load_cache "cache.json" (to_path c8StableCache "cache.json" []) = c8StableCache := by
  have h := c8_cache_roundtrip_stable c8StableCache "cache.json" [] (by decide)
  exact ⟨by decide, h.2⟩

end E2P
